import Mathlib

/-!
Verification of the websocket-broker session engine.

The definitions below are a shallow embedding of `sessionManager.js` and the
message/close handlers of `server.js`.  WebSocket objects are represented by
their numeric `ID` (the only property the session logic ever reads); a
nullable reference is an `Option`.  The `for` loop of `updateSessionTable`,
which splices the array it iterates over, is modelled by the recursive
`scanLoop` with an explicit fuel argument; the wrapper passes
`sessions.length` fuel, which is exactly the maximal number of iterations
(each iteration decreases `length - i` by one).
-/

set_option maxHeartbeats 1600000

namespace Broker

/-- One entry of the `sessions` array of sessionManager.js.  `targetKey` and
`targetWS` are nullable in the source and therefore `Option` here;
`clientKey` and `clientWS` are always set by every write in the source. -/
structure Session where
  ID : Nat
  clientID : String
  targetID : String
  clientKey : String
  targetKey : Option String
  clientWS : Nat
  targetWS : Option Nat
deriving Repr, DecidableEq

instance : Inhabited Session := ⟨⟨0, "", "", "", none, 0, none⟩⟩

/-- Array indexing `sessions[i]`; every use in the source is in bounds, the
default value is irrelevant wherever the lemmas below apply. -/
def getS (l : List Session) (i : Nat) : Session := l.getD i default

/-- `updateSessionClearTargetInfo(ID)`: clears `targetKey`/`targetWS` on every
record whose `ID` matches. -/
def updateSessionClearTargetInfo (sessions : List Session) (ID : Nat) : List Session :=
  sessions.map fun s => if s.ID = ID then { s with targetKey := none, targetWS := none } else s

/-- The in-loop cleanup of a stale record `s`: if it has a partner
reference, that partner's records are demoted via
`updateSessionClearTargetInfo`. -/
def clearPartner (sessions : List Session) (s : Session) : List Session :=
  match s.targetWS with
  | some tid => updateSessionClearTargetInfo sessions tid
  | none => sessions

/-- The match check performed on the record `m` at position `i`: sets
`clientRecordIndex` on an exact `(clientID, targetID)` match, otherwise
`targetRecordIndex` on a reversed match. -/
def classify (clientID targetID : String) (m : Session) (i : Nat)
    (cIdx tIdx : Option Nat) : Option Nat × Option Nat :=
  if m.clientID = clientID ∧ m.targetID = targetID then (some i, tIdx)
  else if m.clientID = targetID ∧ m.targetID = clientID then (cIdx, some i)
  else (cIdx, tIdx)

/-- The record-locating `for` loop of `updateSessionTable`, including the
in-loop cleanup: a record owned by the declaring socket whose declared pair
differs is removed (after demoting its partner), and the loop continues at
the same index over the spliced array, exactly as the JavaScript does
(the element shifted into position `i` is match-checked but not
cleanup-checked).  Returns the final array together with
`clientRecordIndex` and `targetRecordIndex` (`none` encodes `-1`). -/
def scanLoop (wsID : Nat) (clientID targetID : String) :
    Nat → List Session → Nat → Option Nat → Option Nat →
    List Session × Option Nat × Option Nat
  | 0, sessions, _, cIdx, tIdx => (sessions, cIdx, tIdx)
  | fuel + 1, sessions, i, cIdx, tIdx =>
    if i < sessions.length then
      let s := getS sessions i
      if s.ID = wsID ∧ ¬(s.clientID = clientID ∧ s.targetID = targetID) then
        let s2 := (clearPartner sessions s).eraseIdx i
        if i ≥ s2.length then (s2, cIdx, tIdx)
        else
          let p := classify clientID targetID (getS s2 i) i cIdx tIdx
          scanLoop wsID clientID targetID fuel s2 (i + 1) p.1 p.2
      else
        let p := classify clientID targetID s i cIdx tIdx
        scanLoop wsID clientID targetID fuel sessions (i + 1) p.1 p.2
    else (sessions, cIdx, tIdx)

/-- `addSession`: pushes a new record; its `ID` is the client socket's `ID`. -/
def addSession (sessions : List Session) (clientID targetID : String)
    (clientKey : String) (targetKey : Option String)
    (clientWS : Nat) (targetWS : Option Nat) : List Session :=
  sessions ++ [{ ID := clientWS, clientID := clientID, targetID := targetID,
                 clientKey := clientKey, targetKey := targetKey,
                 clientWS := clientWS, targetWS := targetWS }]

/-- `updateSessionFromIndex`: overwrites every field of the record at `i`. -/
def updateSessionFromIndex (sessions : List Session) (i : Nat) (sessionID : Nat)
    (clientID targetID : String) (clientKey : String) (targetKey : Option String)
    (clientWS : Nat) (targetWS : Option Nat) : List Session :=
  sessions.set i { ID := sessionID, clientID := clientID, targetID := targetID,
                   clientKey := clientKey, targetKey := targetKey,
                   clientWS := clientWS, targetWS := targetWS }

/-- Return value of `updateSessionTable`.  On invalid input the source
returns the bare number `-100` instead of a result object; `invalidInput`
models that bare-number return. -/
inductive SessionResult where
  | invalidInput
  | res (result : Int) (clientWS : Nat) (targetWS : Option Nat)
deriving Repr, DecidableEq

/-- Entry point of the locating loop: start at index 0 with both indices
unset (`-1`); the fuel `sessions.length` is an upper bound on the number of
iterations, since every iteration decreases `length - i` by one. -/
def locate (sessions : List Session) (wsID : Nat) (clientID targetID : String) :
    List Session × Option Nat × Option Nat :=
  scanLoop wsID clientID targetID sessions.length sessions 0 none none

/-- `updateSessionTable(ws, clientID, targetID, key)`: the four-case matching
algorithm.  Arguments are `Option String` because the fields come from a
loosely-typed message and may be absent.  Returns the new array and the
result value.  Reads of `sessions[targetRecordIndex]` are re-done after each
mutation, in the order the source performs them. -/
def updateSessionTable (sessions : List Session) (wsID : Nat)
    (client target key : Option String) : List Session × SessionResult :=
  match client, target, key with
  | some clientID, some targetID, some key =>
    let r := locate sessions wsID clientID targetID
    let s0 := r.1
    match r.2.1, r.2.2 with
    | none, none =>
      (addSession s0 clientID targetID key none wsID none,
       SessionResult.res (-1) wsID none)
    | some ci, none =>
      (updateSessionFromIndex s0 ci wsID clientID targetID key none wsID none,
       SessionResult.res (-1) wsID none)
    | none, some ti =>
      let t0 := getS s0 ti
      let s1 := updateSessionFromIndex s0 ti t0.ID targetID clientID
                  t0.clientKey (some key) t0.clientWS (some wsID)
      let t1 := getS s1 ti
      let s2 := addSession s1 clientID targetID key (some t1.clientKey)
                  wsID (some t1.clientWS)
      let t2 := getS s2 ti
      if key = t2.clientKey then (s2, SessionResult.res 0 wsID (some t2.clientWS))
      else (s2, SessionResult.res (-2) wsID (some t2.clientWS))
    | some ci, some ti =>
      let t0 := getS s0 ti
      let s1 := updateSessionFromIndex s0 ci wsID clientID targetID
                  key (some t0.clientKey) wsID (some t0.clientWS)
      let t1 := getS s1 ti
      let s2 := updateSessionFromIndex s1 ti t1.ID targetID clientID
                  t1.clientKey (some key) t1.clientWS (some wsID)
      let t2 := getS s2 ti
      if key = t2.clientKey then (s2, SessionResult.res 0 wsID (some t2.clientWS))
      else (s2, SessionResult.res (-2) wsID (some t2.clientWS))
  | _, _, _ => (sessions, SessionResult.invalidInput)

/-- `updateSessionClearTargetInfoFromTargetID(ID)`: demotes the first record
whose `targetWS.ID` matches and returns that record's `clientWS`. -/
def updateSessionClearTargetInfoFromTargetID (sessions : List Session) (ID : Nat) :
    List Session × Option Nat :=
  match sessions.findIdx? (fun s => s.targetWS = some ID) with
  | some i =>
    let s := getS sessions i
    (sessions.set i { s with targetKey := none, targetWS := none }, some s.clientWS)
  | none => (sessions, none)

/-- `deleteSessionFromID(ID)`: removes the first record with matching `ID`. -/
def deleteSessionFromID (sessions : List Session) (ID : Nat) : List Session :=
  match sessions.findIdx? (fun s => s.ID = ID) with
  | some i => sessions.eraseIdx i
  | none => sessions

/-- Result of `getTargetWSFromSession`: either a numeric error code or the
record's `targetWS` reference, which the source does not null-check before
use. -/
inductive TargetLookup where
  | errCode (code : Int)
  | ws (w : Option Nat)
deriving Repr, DecidableEq

/-- `getTargetWSFromSession(ws)`: first record whose `clientWS` matches the
calling socket decides the outcome. -/
def getTargetWSFromSession (sessions : List Session) (wsID : Nat) : TargetLookup :=
  match sessions.find? (fun s => s.clientWS = wsID) with
  | some s =>
    if s.targetKey = some s.clientKey then TargetLookup.ws s.targetWS
    else TargetLookup.errCode (-2)
  | none => TargetLookup.errCode (-1)

/-- A parsed inbound message, as dispatched by `ws.onmessage` in server.js. -/
inductive Msg where
  | session (client target key : Option String)
  | command (payload : String)
  | other
deriving Repr, DecidableEq

/-- An outbound send: target connection (`none` models invoking `send` on a
null reference) and the text payload. -/
abbrev Send := Option Nat × String

/-- The `SESSION` branch of `ws.onmessage`: notifications derived from the
result of `updateSessionTable`.  When the source returns the bare `-100`,
`res.result` is `undefined`, so the declarer is sent
`"SESSION_NOT_UP: undefined"` and nobody else is notified. -/
def sessionSends (wsID : Nat) (r : SessionResult) : List Send :=
  match r with
  | SessionResult.invalidInput => [(some wsID, "SESSION_NOT_UP: undefined")]
  | SessionResult.res rv _ tw =>
    if rv = 0 then [(some wsID, "SESSION_UP"), (tw, "SESSION_UP")]
    else if rv = -2 then
      [(some wsID, "SESSION_NOT_UP: " ++ toString rv), (tw, "SESSION_NOT_UP: -2")]
    else [(some wsID, "SESSION_NOT_UP: " ++ toString rv)]

/-- `ws.onmessage` of server.js: returns the new table and the list of sends
performed, in order. -/
def handleMessage (sessions : List Session) (wsID : Nat) (m : Msg) :
    List Session × List Send :=
  match m with
  | Msg.session c t k =>
    let r := updateSessionTable sessions wsID c t k
    (r.1, sessionSends wsID r.2)
  | Msg.command payload =>
    match getTargetWSFromSession sessions wsID with
    | TargetLookup.errCode _ => (sessions, [])
    | TargetLookup.ws w => (sessions, [(w, payload)])
  | Msg.other => (sessions, [])

/-- `ws.onclose` of server.js: demote the partner record, notify its owner,
then delete the closing socket's own record. -/
def handleClose (sessions : List Session) (wsID : Nat) :
    List Session × List Send :=
  let r := updateSessionClearTargetInfoFromTargetID sessions wsID
  let sends := match r.2 with
    | some p => [(some p, "SESSION_NOT_UP: -1")]
    | none => ([] : List Send)
  (deleteSessionFromID r.1 wsID, sends)

/-- An inbound event: a message on a connection, or a disconnect. -/
inductive Event where
  | message (wsID : Nat) (m : Msg)
  | close (wsID : Nat)
deriving Repr, DecidableEq

/-- One step of the single-threaded event loop. -/
def step (sessions : List Session) (e : Event) : List Session × List Send :=
  match e with
  | Event.message w m => handleMessage sessions w m
  | Event.close w => handleClose sessions w

/-- Session tables reachable from the empty table by any event sequence. -/
inductive Reachable : List Session → Prop where
  | init : Reachable []
  | next (s : List Session) (e : Event) : Reachable s → Reachable (step s e).1

/-- The record created by a first declaration `(a, b, k)` from connection
`A`: no partner yet. -/
def recordPending (A : Nat) (a b k : String) : Session :=
  ⟨A, a, b, k, none, A, none⟩

/-- Connection `A`'s record after `A` declared `(a, b, k)` and `B` replied
with `(b, a, k2)`. -/
def recordA (A B : Nat) (a b k k2 : String) : Session :=
  ⟨A, a, b, k, some k2, A, some B⟩

/-- Connection `B`'s record after `A` declared `(a, b, k)` and `B` replied
with `(b, a, k2)`. -/
def recordB (A B : Nat) (a b k k2 : String) : Session :=
  ⟨B, b, a, k2, some k, B, some A⟩

/-- The record-clearing function applied pointwise by
`updateSessionClearTargetInfo`. -/
def clearIf (tid : Nat) (s : Session) : Session :=
  if s.ID = tid then { s with targetKey := none, targetWS := none } else s

/-- No two records share a connection identity (`ID`). -/
def distinctIDs (l : List Session) : Prop :=
  ∀ i j, i < l.length → j < l.length → i ≠ j → (getS l i).ID ≠ (getS l j).ID

/-- No two records declare the same `(clientID, targetID)` pair. -/
def distinctPairs (l : List Session) : Prop :=
  ∀ i j, i < l.length → j < l.length → i ≠ j →
    ¬((getS l i).clientID = (getS l j).clientID ∧
      (getS l i).targetID = (getS l j).targetID)

/-- Every record's `ID` is the identity of its `clientWS`. -/
def wsConsistent (l : List Session) : Prop :=
  ∀ i, i < l.length → (getS l i).ID = (getS l i).clientWS

/-- A record with no partner reference also has no partner key: the two are
always written together. -/
def targetConsistent (l : List Session) : Prop :=
  ∀ i, i < l.length → (getS l i).targetWS = none → (getS l i).targetKey = none

/-- The session-table invariant maintained by every event. -/
def Inv (l : List Session) : Prop :=
  distinctIDs l ∧ distinctPairs l ∧ wsConsistent l ∧ targetConsistent l

/-- Cursor invariant of `scanLoop`: what is known about the two located
indices and about the already-visited positions `< i`. -/
def ScanInv (wsID : Nat) (c t : String) (l : List Session) (i : Nat)
    (cIdx tIdx : Option Nat) : Prop :=
  (∀ a, cIdx = some a → a < i ∧ a < l.length ∧
     (getS l a).clientID = c ∧ (getS l a).targetID = t) ∧
  (∀ b, tIdx = some b → b < i ∧ b < l.length ∧
     (getS l b).clientID = t ∧ (getS l b).targetID = c) ∧
  (∀ a b, cIdx = some a → tIdx = some b → a ≠ b) ∧
  (cIdx = none → ∀ a, a < i → a < l.length →
     ¬((getS l a).clientID = c ∧ (getS l a).targetID = t)) ∧
  (∀ a, a < i → a < l.length → (getS l a).ID = wsID →
     (getS l a).clientID = c ∧ (getS l a).targetID = t)

/-- What holds of `scanLoop`'s result: the cursor invariant at the end of
the array. -/
def ScanPost (wsID : Nat) (c t : String) (l : List Session)
    (cIdx tIdx : Option Nat) : Prop :=
  ScanInv wsID c t l l.length cIdx tIdx

/-! ### Indexing lemmas for `getS`, `List.set`, `List.eraseIdx`, `List.map` -/

theorem getS_cons_zero (x : Session) (l : List Session) : getS (x :: l) 0 = x := rfl

theorem getS_cons_succ (x : Session) (l : List Session) (i : Nat) :
    getS (x :: l) (i + 1) = getS l i := rfl

theorem getS_set_self (l : List Session) (i : Nat) (y : Session) (h : i < l.length) :
    getS (l.set i y) i = y := by
  induction l generalizing i with
  | nil => simp at h
  | cons x xs ih =>
    cases i with
    | zero => rfl
    | succ j => exact ih j (by simpa using h)

theorem getS_set_ne (l : List Session) (i j : Nat) (y : Session) (h : i ≠ j) :
    getS (l.set i y) j = getS l j := by
  induction l generalizing i j with
  | nil => rfl
  | cons x xs ih =>
    cases i with
    | zero =>
      cases j with
      | zero => exact absurd rfl h
      | succ j' => rfl
    | succ i' =>
      cases j with
      | zero => rfl
      | succ j' => exact ih i' j' fun hh => h (by omega)

theorem eraseIdx_length (l : List Session) (i : Nat) (h : i < l.length) :
    (l.eraseIdx i).length = l.length - 1 := by
  induction l generalizing i with
  | nil => simp at h
  | cons x xs ih =>
    cases i with
    | zero => simp [List.eraseIdx]
    | succ j =>
      have hj : j < xs.length := by simpa using h
      have := ih j hj
      simp only [List.eraseIdx, List.length_cons, this]
      omega

theorem getS_eraseIdx_lt (l : List Session) (i j : Nat) (h : j < i) :
    getS (l.eraseIdx i) j = getS l j := by
  induction l generalizing i j with
  | nil => rfl
  | cons x xs ih =>
    cases i with
    | zero => omega
    | succ i' =>
      cases j with
      | zero => rfl
      | succ j' => exact ih i' j' (by omega)

theorem getS_eraseIdx_ge (l : List Session) (i j : Nat) (h : i ≤ j) (hi : i < l.length) :
    getS (l.eraseIdx i) j = getS l (j + 1) := by
  induction l generalizing i j with
  | nil => simp at hi
  | cons x xs ih =>
    cases i with
    | zero => rfl
    | succ i' =>
      cases j with
      | zero => omega
      | succ j' => exact ih i' j' (by omega) (by simpa using hi)

theorem getS_map (f : Session → Session) (l : List Session) (i : Nat) (h : i < l.length) :
    getS (l.map f) i = f (getS l i) := by
  induction l generalizing i with
  | nil => simp at h
  | cons x xs ih =>
    cases i with
    | zero => rfl
    | succ j => exact ih j (by simpa using h)

theorem mem_iff_getS (l : List Session) (r : Session) :
    r ∈ l ↔ ∃ i, i < l.length ∧ getS l i = r := by
  induction l with
  | nil => simp
  | cons x xs ih =>
    constructor
    · intro h
      rcases List.mem_cons.mp h with h | h
      · exact ⟨0, by simp, h.symm⟩
      · rcases ih.mp h with ⟨i, hi, he⟩
        exact ⟨i + 1, by simpa using hi, he⟩
    · rintro ⟨i, hi, he⟩
      cases i with
      | zero => exact he ▸ List.mem_cons_self x xs
      | succ j => exact List.mem_cons_of_mem x (ih.mpr ⟨j, by simpa using hi, he⟩)

/-! ### The table invariant -/

theorem clear_eq_map (l : List Session) (tid : Nat) :
    updateSessionClearTargetInfo l tid = l.map (clearIf tid) := rfl

theorem clearIf_ID (tid : Nat) (s : Session) : (clearIf tid s).ID = s.ID := by
  unfold clearIf; split <;> rfl

theorem clearIf_clientID (tid : Nat) (s : Session) :
    (clearIf tid s).clientID = s.clientID := by
  unfold clearIf; split <;> rfl

theorem clearIf_targetID (tid : Nat) (s : Session) :
    (clearIf tid s).targetID = s.targetID := by
  unfold clearIf; split <;> rfl

theorem clearIf_clientWS (tid : Nat) (s : Session) :
    (clearIf tid s).clientWS = s.clientWS := by
  unfold clearIf; split <;> rfl

theorem clearIf_target (tid : Nat) (s : Session)
    (h : s.targetWS = none → s.targetKey = none) :
    (clearIf tid s).targetWS = none → (clearIf tid s).targetKey = none := by
  unfold clearIf; split
  · intro; rfl
  · exact h

theorem Inv_clear (l : List Session) (tid : Nat) (h : Inv l) :
    Inv (updateSessionClearTargetInfo l tid) := by
  obtain ⟨h1, h2, h3, h4⟩ := h
  rw [clear_eq_map]
  refine ⟨?_, ?_, ?_, ?_⟩
  · intro i j hi hj hne
    rw [List.length_map] at hi hj
    rw [getS_map _ _ _ hi, getS_map _ _ _ hj, clearIf_ID, clearIf_ID]
    exact h1 i j hi hj hne
  · intro i j hi hj hne
    rw [List.length_map] at hi hj
    rw [getS_map _ _ _ hi, getS_map _ _ _ hj, clearIf_clientID, clearIf_clientID,
        clearIf_targetID, clearIf_targetID]
    exact h2 i j hi hj hne
  · intro i hi
    rw [List.length_map] at hi
    rw [getS_map _ _ _ hi, clearIf_ID, clearIf_clientWS]
    exact h3 i hi
  · intro i hi
    rw [List.length_map] at hi
    rw [getS_map _ _ _ hi]
    exact clearIf_target _ _ (h4 i hi)

theorem Inv_eraseIdx (l : List Session) (i : Nat) (h : Inv l) : Inv (l.eraseIdx i) := by
  by_cases hi : i < l.length
  · obtain ⟨h1, h2, h3, h4⟩ := h
    have hlen := eraseIdx_length l i hi
    have key : ∀ j, j < (l.eraseIdx i).length →
        ∃ j', j' < l.length ∧ getS (l.eraseIdx i) j = getS l j' ∧
          ((j' = j ∧ j < i) ∨ (j' = j + 1 ∧ i ≤ j)) := by
      intro j hj
      by_cases hji : j < i
      · exact ⟨j, by omega, getS_eraseIdx_lt l i j hji, Or.inl ⟨rfl, hji⟩⟩
      · exact ⟨j + 1, by omega, getS_eraseIdx_ge l i j (by omega) hi,
          Or.inr ⟨rfl, by omega⟩⟩
    refine ⟨?_, ?_, ?_, ?_⟩
    · intro a b ha hb hne
      obtain ⟨a', ha', hea, hca⟩ := key a ha
      obtain ⟨b', hb', heb, hcb⟩ := key b hb
      rw [hea, heb]
      refine h1 a' b' ha' hb' ?_
      rcases hca with ⟨e1, e2⟩ | ⟨e1, e2⟩ <;> rcases hcb with ⟨f1, f2⟩ | ⟨f1, f2⟩ <;> omega
    · intro a b ha hb hne
      obtain ⟨a', ha', hea, hca⟩ := key a ha
      obtain ⟨b', hb', heb, hcb⟩ := key b hb
      rw [hea, heb]
      refine h2 a' b' ha' hb' ?_
      rcases hca with ⟨e1, e2⟩ | ⟨e1, e2⟩ <;> rcases hcb with ⟨f1, f2⟩ | ⟨f1, f2⟩ <;> omega
    · intro a ha
      obtain ⟨a', ha', hea, _⟩ := key a ha
      rw [hea]; exact h3 a' ha'
    · intro a ha
      obtain ⟨a', ha', hea, _⟩ := key a ha
      rw [hea]; exact h4 a' ha'
  · rw [List.eraseIdx_of_length_le (by omega)]
    exact h

theorem Inv_nil : Inv [] := by
  refine ⟨?_, ?_, ?_, ?_⟩ <;> intro i <;> intros <;> simp_all

theorem clearPartner_length (l : List Session) (s : Session) :
    (clearPartner l s).length = l.length := by
  unfold clearPartner; cases s.targetWS <;> simp [clear_eq_map]

theorem clearPartner_fields (l : List Session) (s : Session) (a : Nat) (ha : a < l.length) :
    (getS (clearPartner l s) a).ID = (getS l a).ID ∧
    (getS (clearPartner l s) a).clientID = (getS l a).clientID ∧
    (getS (clearPartner l s) a).targetID = (getS l a).targetID := by
  cases hws : s.targetWS with
  | none => simp [clearPartner, hws]
  | some tid =>
    simp only [clearPartner, hws, clear_eq_map, getS_map _ _ _ ha]
    exact ⟨clearIf_ID _ _, clearIf_clientID _ _, clearIf_targetID _ _⟩

theorem Inv_clearPartner (l : List Session) (s : Session) (h : Inv l) :
    Inv (clearPartner l s) := by
  cases hws : s.targetWS with
  | none => simpa [clearPartner, hws] using h
  | some tid => simpa [clearPartner, hws] using Inv_clear l tid h

/-! ### Specification of the locating loop -/

theorem scanInv_post (wsID : Nat) (c t : String) (l : List Session) (i : Nat)
    (cIdx tIdx : Option Nat) (hi : l.length ≤ i)
    (h : ScanInv wsID c t l i cIdx tIdx) : ScanPost wsID c t l cIdx tIdx := by
  obtain ⟨h1, h2, h3, h4, h5⟩ := h
  refine ⟨?_, ?_, h3, ?_, ?_⟩
  · intro a ha
    obtain ⟨_, hb, hc⟩ := h1 a ha
    exact ⟨by omega, hb, hc⟩
  · intro b hb
    obtain ⟨_, hc, hd⟩ := h2 b hb
    exact ⟨by omega, hc, hd⟩
  · intro hn a ha hb
    exact h4 hn a (by omega) hb
  · intro a ha hb
    exact h5 a (by omega) hb

/-- Transport of the cursor invariant to a list whose positions `< i` have
the same `ID` and declared pair. -/
theorem scanInv_transport (wsID : Nat) (c t : String) (l s2 : List Session)
    (i : Nat) (cIdx tIdx : Option Nat)
    (h : ScanInv wsID c t l i cIdx tIdx)
    (hil : i ≤ l.length) (hi2 : i ≤ s2.length)
    (hf : ∀ a, a < i →
      (getS s2 a).ID = (getS l a).ID ∧
      (getS s2 a).clientID = (getS l a).clientID ∧
      (getS s2 a).targetID = (getS l a).targetID) :
    ScanInv wsID c t s2 i cIdx tIdx := by
  obtain ⟨h1, h2, h3, h4, h5⟩ := h
  refine ⟨?_, ?_, h3, ?_, ?_⟩
  · intro a ha
    obtain ⟨hai, _, hc, hd⟩ := h1 a ha
    obtain ⟨_, f2, f3⟩ := hf a hai
    exact ⟨hai, by omega, by rw [f2]; exact hc, by rw [f3]; exact hd⟩
  · intro b hb
    obtain ⟨hbi, _, hc, hd⟩ := h2 b hb
    obtain ⟨_, f2, f3⟩ := hf b hbi
    exact ⟨hbi, by omega, by rw [f2]; exact hc, by rw [f3]; exact hd⟩
  · intro hn a ha _
    obtain ⟨_, f2, f3⟩ := hf a ha
    rw [f2, f3]
    exact h4 hn a ha (by omega)
  · intro a ha _ hid
    obtain ⟨f1, f2, f3⟩ := hf a ha
    rw [f2, f3]
    exact h5 a ha (by omega) (by rw [← f1]; exact hid)

/-- One match check extends the cursor invariant from `i` to `i + 1`,
provided any record at `i` owned by the declaring socket carries the
declared pair. -/
theorem scanInv_step (wsID : Nat) (c t : String) (L : List Session) (i : Nat)
    (cIdx tIdx : Option Nat)
    (h : ScanInv wsID c t L i cIdx tIdx)
    (hi : i < L.length)
    (hid : (getS L i).ID = wsID →
      (getS L i).clientID = c ∧ (getS L i).targetID = t) :
    ScanInv wsID c t L (i + 1)
      (classify c t (getS L i) i cIdx tIdx).1
      (classify c t (getS L i) i cIdx tIdx).2 := by
  obtain ⟨h1, h2, h3, h4, h5⟩ := h
  unfold classify
  by_cases hm1 : (getS L i).clientID = c ∧ (getS L i).targetID = t
  · rw [if_pos hm1]
    refine ⟨?_, ?_, ?_, ?_, ?_⟩
    · intro a ha
      rw [Option.some_inj] at ha
      subst ha
      exact ⟨by omega, hi, hm1.1, hm1.2⟩
    · intro b hb
      obtain ⟨hbi, hb2, hb3, hb4⟩ := h2 b hb
      exact ⟨by omega, hb2, hb3, hb4⟩
    · intro a b ha hb
      rw [Option.some_inj] at ha
      subst ha
      obtain ⟨hbi, _, _, _⟩ := h2 b hb
      omega
    · intro hn; exact absurd hn (by simp)
    · intro a ha hal hid'
      by_cases hai : a < i
      · exact h5 a hai hal hid'
      · have : a = i := by omega
        subst this; exact hm1
  · rw [if_neg hm1]
    by_cases hm2 : (getS L i).clientID = t ∧ (getS L i).targetID = c
    · rw [if_pos hm2]
      refine ⟨?_, ?_, ?_, ?_, ?_⟩
      · intro a ha
        obtain ⟨hai, ha2, ha3, ha4⟩ := h1 a ha
        exact ⟨by omega, ha2, ha3, ha4⟩
      · intro b hb
        rw [Option.some_inj] at hb
        subst hb
        exact ⟨by omega, hi, hm2.1, hm2.2⟩
      · intro a b ha hb
        rw [Option.some_inj] at hb
        subst hb
        obtain ⟨hai, _, _, _⟩ := h1 a ha
        omega
      · intro hn a ha hal
        by_cases hai : a < i
        · exact h4 hn a hai hal
        · have : a = i := by omega
          subst this; exact hm1
      · intro a ha hal hid'
        by_cases hai : a < i
        · exact h5 a hai hal hid'
        · have : a = i := by omega
          subst this; exact hid hid'
    · rw [if_neg hm2]
      refine ⟨?_, ?_, h3, ?_, ?_⟩
      · intro a ha
        obtain ⟨hai, ha2, ha3, ha4⟩ := h1 a ha
        exact ⟨by omega, ha2, ha3, ha4⟩
      · intro b hb
        obtain ⟨hbi, hb2, hb3, hb4⟩ := h2 b hb
        exact ⟨by omega, hb2, hb3, hb4⟩
      · intro hn a ha hal
        by_cases hai : a < i
        · exact h4 hn a hai hal
        · have : a = i := by omega
          subst this; exact hm1
      · intro a ha hal hid'
        by_cases hai : a < i
        · exact h5 a hai hal hid'
        · have : a = i := by omega
          subst this; exact hid hid'

/-- Main loop specification: starting from a table satisfying the
invariant, the loop preserves it and its result indices satisfy the
post-conditions used by the four cases of `updateSessionTable`. -/
theorem scanLoop_spec (wsID : Nat) (c t : String) :
    ∀ fuel l i cIdx tIdx, l.length - i ≤ fuel → Inv l →
      ScanInv wsID c t l i cIdx tIdx →
      Inv (scanLoop wsID c t fuel l i cIdx tIdx).1 ∧
      ScanPost wsID c t (scanLoop wsID c t fuel l i cIdx tIdx).1
        (scanLoop wsID c t fuel l i cIdx tIdx).2.1
        (scanLoop wsID c t fuel l i cIdx tIdx).2.2 := by
  intro fuel
  induction fuel with
  | zero =>
    intro l i cIdx tIdx hf hinv hs
    exact ⟨hinv, scanInv_post wsID c t l i cIdx tIdx (by omega) hs⟩
  | succ n ih =>
    intro l i cIdx tIdx hf hinv hs
    simp only [scanLoop]
    by_cases hlen : i < l.length
    · rw [if_pos hlen]
      by_cases hcl : (getS l i).ID = wsID ∧
          ¬((getS l i).clientID = c ∧ (getS l i).targetID = t)
      · rw [if_pos hcl]
        have hc1len : (clearPartner l (getS l i)).length = l.length :=
          clearPartner_length l (getS l i)
        have hs2len : ((clearPartner l (getS l i)).eraseIdx i).length = l.length - 1 := by
          rw [eraseIdx_length _ _ (by omega), hc1len]
        have hs2f : ∀ a, a < i →
            (getS ((clearPartner l (getS l i)).eraseIdx i) a).ID = (getS l a).ID ∧
            (getS ((clearPartner l (getS l i)).eraseIdx i) a).clientID =
              (getS l a).clientID ∧
            (getS ((clearPartner l (getS l i)).eraseIdx i) a).targetID =
              (getS l a).targetID := by
          intro a ha
          rw [getS_eraseIdx_lt _ _ _ ha]
          exact clearPartner_fields l (getS l i) a (by omega)
        have hinv2 : Inv ((clearPartner l (getS l i)).eraseIdx i) :=
          Inv_eraseIdx _ _ (Inv_clearPartner _ _ hinv)
        by_cases hbr : i ≥ ((clearPartner l (getS l i)).eraseIdx i).length
        · rw [if_pos hbr]
          dsimp only
          refine ⟨hinv2, scanInv_post wsID c t _ i cIdx tIdx (by omega) ?_⟩
          exact scanInv_transport wsID c t l _ i cIdx tIdx hs (by omega) (by omega) hs2f
        · rw [if_neg hbr]
          have hilt : i < ((clearPartner l (getS l i)).eraseIdx i).length := by omega
          have hshift : (getS ((clearPartner l (getS l i)).eraseIdx i) i).ID =
              (getS l (i + 1)).ID := by
            rw [getS_eraseIdx_ge _ _ _ (Nat.le_refl i) (by omega)]
            exact (clearPartner_fields l (getS l i) (i + 1) (by omega)).1
          have hid : (getS ((clearPartner l (getS l i)).eraseIdx i) i).ID = wsID →
              (getS ((clearPartner l (getS l i)).eraseIdx i) i).clientID = c ∧
              (getS ((clearPartner l (getS l i)).eraseIdx i) i).targetID = t := by
            intro hw
            exfalso
            have hne := hinv.1 i (i + 1) hlen (by omega) (by omega)
            rw [hcl.1, ← hshift, hw] at hne
            exact hne rfl
          refine ih _ (i + 1) _ _ (by omega) hinv2 ?_
          refine scanInv_step wsID c t _ i cIdx tIdx ?_ hilt hid
          exact scanInv_transport wsID c t l _ i cIdx tIdx hs (by omega) (by omega) hs2f
      · rw [if_neg hcl]
        push_neg at hcl
        refine ih l (i + 1) _ _ (by omega) hinv ?_
        exact scanInv_step wsID c t l i cIdx tIdx hs hlen fun hw => hcl hw
    · rw [if_neg hlen]
      exact ⟨hinv, scanInv_post wsID c t l i cIdx tIdx (by omega) hs⟩

theorem scanInv_init (wsID : Nat) (c t : String) (l : List Session) :
    ScanInv wsID c t l 0 none none := by
  refine ⟨?_, ?_, ?_, ?_, ?_⟩ <;> intro a <;> intros <;> simp_all

theorem locate_spec (l : List Session) (wsID : Nat) (c t : String) (h : Inv l) :
    Inv (locate l wsID c t).1 ∧
    ScanPost wsID c t (locate l wsID c t).1
      (locate l wsID c t).2.1 (locate l wsID c t).2.2 :=
  scanLoop_spec wsID c t l.length l 0 none none (by omega) h (scanInv_init wsID c t l)

/-! ### Invariant preservation through the four cases -/

theorem getS_append_lt (l : List Session) (x : Session) (a : Nat) (ha : a < l.length) :
    getS (l ++ [x]) a = getS l a := by
  induction l generalizing a with
  | nil => simp at ha
  | cons y ys ih =>
    cases a with
    | zero => rfl
    | succ b => exact ih b (by simpa using ha)

theorem getS_append_len (l : List Session) (x : Session) :
    getS (l ++ [x]) l.length = x := by
  induction l with
  | nil => rfl
  | cons y ys ih => simpa using ih

/-- Overwriting one record preserves the table invariant provided the new
record keeps the old declared pair, its `ID` collides with no other record,
and it is itself internally consistent. -/
theorem Inv_set_pres (L : List Session) (i : Nat) (rec : Session) (h : Inv L)
    (hi : i < L.length)
    (hpair : rec.clientID = (getS L i).clientID ∧ rec.targetID = (getS L i).targetID)
    (hid : ∀ a, a < L.length → a ≠ i → (getS L a).ID ≠ rec.ID)
    (hws : rec.ID = rec.clientWS)
    (htc : rec.targetWS = none → rec.targetKey = none) :
    Inv (L.set i rec) := by
  obtain ⟨h1, h2, h3, h4⟩ := h
  have hget : ∀ a, a ≠ i → getS (L.set i rec) a = getS L a :=
    fun a ha => getS_set_ne L i a rec fun hh => ha hh.symm
  have hgeti : getS (L.set i rec) i = rec := getS_set_self L i rec hi
  refine ⟨?_, ?_, ?_, ?_⟩
  · intro a b ha hb hne
    rw [List.length_set] at ha hb
    by_cases hai : a = i
    · subst hai
      rw [hgeti, hget b (by omega)]
      exact fun hh => hid b hb (by omega) hh.symm
    · by_cases hbi : b = i
      · subst hbi
        rw [hgeti, hget a hai]
        exact hid a ha hai
      · rw [hget a hai, hget b hbi]
        exact h1 a b ha hb hne
  · intro a b ha hb hne
    rw [List.length_set] at ha hb
    by_cases hai : a = i
    · subst hai
      rw [hgeti, hget b (by omega)]
      intro hh
      exact h2 a b hi hb (by omega) ⟨hpair.1 ▸ hh.1, hpair.2 ▸ hh.2⟩
    · by_cases hbi : b = i
      · subst hbi
        rw [hgeti, hget a hai]
        intro hh
        exact h2 a b ha hi hai ⟨hpair.1 ▸ hh.1, hpair.2 ▸ hh.2⟩
      · rw [hget a hai, hget b hbi]
        exact h2 a b ha hb hne
  · intro a ha
    rw [List.length_set] at ha
    by_cases hai : a = i
    · subst hai; rw [hgeti]; exact hws
    · rw [hget a hai]; exact h3 a ha
  · intro a ha
    rw [List.length_set] at ha
    by_cases hai : a = i
    · subst hai; rw [hgeti]; exact htc
    · rw [hget a hai]; exact h4 a ha

/-- Appending a fresh record preserves the table invariant provided its
`ID` and declared pair occur nowhere else and it is internally
consistent. -/
theorem Inv_append (L : List Session) (x : Session) (h : Inv L)
    (hid : ∀ a, a < L.length → (getS L a).ID ≠ x.ID)
    (hpair : ∀ a, a < L.length →
      ¬((getS L a).clientID = x.clientID ∧ (getS L a).targetID = x.targetID))
    (hws : x.ID = x.clientWS)
    (htc : x.targetWS = none → x.targetKey = none) :
    Inv (L ++ [x]) := by
  obtain ⟨h1, h2, h3, h4⟩ := h
  have hlen : (L ++ [x]).length = L.length + 1 := by simp
  have hget : ∀ a, a < L.length → getS (L ++ [x]) a = getS L a :=
    fun a ha => getS_append_lt L x a ha
  have hgetl : getS (L ++ [x]) L.length = x := getS_append_len L x
  refine ⟨?_, ?_, ?_, ?_⟩
  · intro a b ha hb hne
    rw [hlen] at ha hb
    by_cases hai : a < L.length
    · by_cases hbi : b < L.length
      · rw [hget a hai, hget b hbi]; exact h1 a b hai hbi hne
      · have : b = L.length := by omega
        subst this
        rw [hget a hai, hgetl]
        exact hid a hai
    · have : a = L.length := by omega
      subst this
      have hbi : b < L.length := by omega
      rw [hgetl, hget b hbi]
      exact fun hh => hid b hbi hh.symm
  · intro a b ha hb hne
    rw [hlen] at ha hb
    by_cases hai : a < L.length
    · by_cases hbi : b < L.length
      · rw [hget a hai, hget b hbi]; exact h2 a b hai hbi hne
      · have : b = L.length := by omega
        subst this
        rw [hget a hai, hgetl]
        exact hpair a hai
    · have : a = L.length := by omega
      subst this
      have hbi : b < L.length := by omega
      rw [hgetl, hget b hbi]
      exact fun hh => hpair b hbi ⟨hh.1.symm, hh.2.symm⟩
  · intro a ha
    rw [hlen] at ha
    by_cases hai : a < L.length
    · rw [hget a hai]; exact h3 a hai
    · have : a = L.length := by omega
      subst this; rw [hgetl]; exact hws
  · intro a ha
    rw [hlen] at ha
    by_cases hai : a < L.length
    · rw [hget a hai]; exact h4 a hai
    · have : a = L.length := by omega
      subst this; rw [hgetl]; exact htc

theorem updateSessionTable_Inv (l : List Session) (wsID : Nat)
    (c t k : Option String) (h : Inv l) :
    Inv (updateSessionTable l wsID c t k).1 := by
  rcases c with _ | cl <;> rcases t with _ | tg <;> rcases k with _ | ky
  all_goals try exact h
  obtain ⟨hinv0, hpost⟩ := locate_spec l wsID cl tg h
  obtain ⟨p1, p2, p3, p4, p5⟩ := hpost
  simp only [updateSessionTable]
  split
  · -- neither record found: a fresh record is appended
    rename_i heq1 heq2
    try dsimp only
    unfold addSession
    refine Inv_append _ _ hinv0 ?_ ?_ rfl (fun _ => rfl)
    · intro a ha he
      exact p4 heq1 a ha ha (p5 a ha ha he)
    · intro a ha
      exact p4 heq1 a ha ha
  · -- only the forward record found: overwritten in place
    rename_i ci heq1 heq2
    try dsimp only
    unfold updateSessionFromIndex
    obtain ⟨_, hci, hpc1, hpc2⟩ := p1 ci heq1
    refine Inv_set_pres _ ci _ hinv0 hci ⟨hpc1.symm, hpc2.symm⟩ ?_ rfl (fun _ => rfl)
    intro a ha hne he
    have hp := p5 a ha ha he
    exact (hinv0.2.1 a ci ha hci hne) ⟨hp.1.trans hpc1.symm, hp.2.trans hpc2.symm⟩
  · -- only the reverse record found: it is updated and a fresh forward
    -- record appended
    rename_i ti heq1 heq2
    try dsimp only
    obtain ⟨_, hti, hpt1, hpt2⟩ := p2 ti heq2
    have hnoID : ∀ a, a < (locate l wsID cl tg).1.length →
        (getS (locate l wsID cl tg).1 a).ID ≠ wsID := by
      intro a ha he
      exact p4 heq1 a ha ha (p5 a ha ha he)
    have hInv1 : Inv ((locate l wsID cl tg).1.set ti
        { ID := (getS (locate l wsID cl tg).1 ti).ID, clientID := tg, targetID := cl,
          clientKey := (getS (locate l wsID cl tg).1 ti).clientKey,
          targetKey := some ky,
          clientWS := (getS (locate l wsID cl tg).1 ti).clientWS,
          targetWS := some wsID }) := by
      refine Inv_set_pres _ ti _ hinv0 hti ⟨hpt1.symm, hpt2.symm⟩ ?_
        (hinv0.2.2.1 ti hti) (fun hh => Option.noConfusion hh)
      intro a ha hne
      exact hinv0.1 a ti ha hti hne
    split <;> dsimp only <;>
    · unfold addSession updateSessionFromIndex
      refine Inv_append _ _ ?_ ?_ ?_ rfl (fun hh => Option.noConfusion hh)
      · exact hInv1
      · intro a ha he
        rw [List.length_set] at ha
        by_cases hai : a = ti
        · subst hai
          rw [getS_set_self _ _ _ hti] at he
          exact hnoID a hti he
        · rw [getS_set_ne _ _ _ _ (fun hh => hai hh.symm)] at he
          exact hnoID a ha he
      · intro a ha hp
        rw [List.length_set] at ha
        by_cases hai : a = ti
        · subst hai
          rw [getS_set_self _ _ _ hti] at hp
          have h1 : tg = cl := hp.1
          have h2 : cl = tg := hp.2
          exact p4 heq1 a hti hti ⟨hpt1.trans h1, hpt2.trans h2⟩
        · rw [getS_set_ne _ _ _ _ (fun hh => hai hh.symm)] at hp
          exact p4 heq1 a ha ha hp
  · -- both records found: both overwritten in place
    rename_i ci ti heq1 heq2
    try dsimp only
    obtain ⟨_, hci, hpc1, hpc2⟩ := p1 ci heq1
    obtain ⟨_, hti, hpt1, hpt2⟩ := p2 ti heq2
    have hne : ci ≠ ti := p3 ci ti heq1 heq2
    have ht1 : getS ((locate l wsID cl tg).1.set ci
        { ID := wsID, clientID := cl, targetID := tg, clientKey := ky,
          targetKey := some (getS (locate l wsID cl tg).1 ti).clientKey,
          clientWS := wsID,
          targetWS := some (getS (locate l wsID cl tg).1 ti).clientWS }) ti =
        getS (locate l wsID cl tg).1 ti :=
      getS_set_ne _ _ _ _ hne
    have hInv1 : Inv ((locate l wsID cl tg).1.set ci
        { ID := wsID, clientID := cl, targetID := tg, clientKey := ky,
          targetKey := some (getS (locate l wsID cl tg).1 ti).clientKey,
          clientWS := wsID,
          targetWS := some (getS (locate l wsID cl tg).1 ti).clientWS }) := by
      refine Inv_set_pres _ ci _ hinv0 hci ⟨hpc1.symm, hpc2.symm⟩ ?_ rfl
        (fun hh => Option.noConfusion hh)
      intro a ha hne' he
      have hp := p5 a ha ha he
      exact (hinv0.2.1 a ci ha hci hne') ⟨hp.1.trans hpc1.symm, hp.2.trans hpc2.symm⟩
    split <;> dsimp only <;>
    · unfold updateSessionFromIndex
      rw [ht1]
      refine Inv_set_pres _ ti _ hInv1 (by rw [List.length_set]; exact hti)
        ⟨?_, ?_⟩ ?_ (hinv0.2.2.1 ti hti) (fun hh => Option.noConfusion hh)
      · rw [ht1]; exact hpt1.symm
      · rw [ht1]; exact hpt2.symm
      · intro a ha hai he
        rw [List.length_set] at ha
        by_cases hac : a = ci
        · subst hac
          rw [getS_set_self _ _ _ hci] at he
          have hp := p5 ti hti hti he.symm
          exact (hinv0.2.1 a ti hci hti hne)
            ⟨hpc1.trans hp.1.symm, hpc2.trans hp.2.symm⟩
        · rw [getS_set_ne _ _ _ _ (fun hh => hac hh.symm)] at he
          exact hinv0.1 a ti ha hti hai he

/-! ### Invariant preservation through disconnects -/

theorem findIdx?_aux (p : Session → Bool) :
    ∀ (l : List Session) (st i : Nat), List.findIdx? p l st = some i →
      st ≤ i ∧ i - st < l.length ∧ p (getS l (i - st)) = true := by
  intro l
  induction l with
  | nil => intro st i h; simp [List.findIdx?] at h
  | cons x xs ih =>
    intro st i h
    rw [List.findIdx?] at h
    by_cases hp : p x
    · rw [if_pos hp] at h
      rw [Option.some_inj] at h
      subst h
      exact ⟨Nat.le_refl st, by simp, by simpa using hp⟩
    · rw [if_neg hp] at h
      obtain ⟨h1, h2, h3⟩ := ih (st + 1) i h
      refine ⟨by omega, by simp; omega, ?_⟩
      have he : i - st = (i - (st + 1)) + 1 := by omega
      rw [he, getS_cons_succ]
      exact h3

theorem findIdx?_spec (p : Session → Bool) (l : List Session) (i : Nat)
    (h : l.findIdx? p = some i) : i < l.length ∧ p (getS l i) = true := by
  obtain ⟨_, h2, h3⟩ := findIdx?_aux p l 0 i h
  simpa using ⟨h2, h3⟩

theorem clearFromTargetID_Inv (l : List Session) (ID : Nat) (h : Inv l) :
    Inv (updateSessionClearTargetInfoFromTargetID l ID).1 := by
  unfold updateSessionClearTargetInfoFromTargetID
  split
  · rename_i i heq
    dsimp only
    obtain ⟨hi, _⟩ := findIdx?_spec _ _ _ heq
    refine Inv_set_pres _ i _ h hi ⟨rfl, rfl⟩ ?_ ?_ (fun _ => rfl)
    · intro a ha hne
      exact h.1 a i ha hi hne
    · exact h.2.2.1 i hi
  · exact h

theorem deleteSessionFromID_Inv (l : List Session) (ID : Nat) (h : Inv l) :
    Inv (deleteSessionFromID l ID) := by
  unfold deleteSessionFromID
  split
  · exact Inv_eraseIdx _ _ h
  · exact h

theorem handleMessage_Inv (l : List Session) (w : Nat) (m : Msg) (h : Inv l) :
    Inv (handleMessage l w m).1 := by
  cases m with
  | session c t k => exact updateSessionTable_Inv l w c t k h
  | command p =>
    cases hres : getTargetWSFromSession l w <;> simp [handleMessage, hres] <;> exact h
  | other => exact h

theorem handleClose_Inv (l : List Session) (w : Nat) (h : Inv l) :
    Inv (handleClose l w).1 :=
  deleteSessionFromID_Inv _ _ (clearFromTargetID_Inv l w h)

theorem step_Inv (l : List Session) (e : Event) (h : Inv l) : Inv (step l e).1 := by
  cases e with
  | message w m => exact handleMessage_Inv l w m h
  | close w => exact handleClose_Inv l w h

/-- Every reachable session table satisfies the structural invariant. -/
theorem reachable_Inv (l : List Session) (h : Reachable l) : Inv l := by
  induction h with
  | init => exact Inv_nil
  | next s e _ ih => exact step_Inv s e ih

/-! ### Concrete executions: the pairing handshake and its follow-ups -/

theorem sendNotUp1 : "SESSION_NOT_UP: " ++ toString (-1 : Int) = "SESSION_NOT_UP: -1" := by
  decide

theorem sendNotUp2 : "SESSION_NOT_UP: " ++ toString (-2 : Int) = "SESSION_NOT_UP: -2" := by
  decide

/-- A first declaration on the empty table creates a pending record and
notifies only the declarer. -/
theorem declare_first (A : Nat) (a b k : String) :
    handleMessage [] A (Msg.session (some a) (some b) (some k)) =
      ([recordPending A a b k], [(some A, "SESSION_NOT_UP: -1")]) := by
  simp [handleMessage, updateSessionTable, locate, scanLoop, addSession,
        sessionSends, recordPending, sendNotUp1]

/-- The partner's reply declaration: the pending record is linked back and a
second record is created; outcome depends on key agreement. -/
theorem declare_second (A B : Nat) (a b k k2 : String) (hAB : A ≠ B) (hab : a ≠ b) :
    handleMessage [recordPending A a b k] B (Msg.session (some b) (some a) (some k2)) =
      ([recordA A B a b k k2, recordB A B a b k k2],
       if k2 = k then [(some B, "SESSION_UP"), (some A, "SESSION_UP")]
       else [(some B, "SESSION_NOT_UP: -2"), (some A, "SESSION_NOT_UP: -2")]) := by
  simp [handleMessage, updateSessionTable, locate, scanLoop, addSession, sessionSends,
        updateSessionFromIndex, getS, classify, recordPending, recordA, recordB,
        hAB, hab, Ne.symm hAB, Ne.symm hab, sendNotUp2]
  split <;> simp [sessionSends, sendNotUp2]

/-- Relay from the `A` side of a linked pair with matching keys. -/
theorem relay_from_A (A B : Nat) (a b k p : String) :
    handleMessage [recordA A B a b k k, recordB A B a b k k] A (Msg.command p) =
      ([recordA A B a b k k, recordB A B a b k k], [(some B, p)]) := by
  simp [handleMessage, getTargetWSFromSession, recordA, recordB, List.find?]

/-- Relay from the `B` side of a linked pair with matching keys. -/
theorem relay_from_B (A B : Nat) (a b k p : String) (hAB : A ≠ B) :
    handleMessage [recordA A B a b k k, recordB A B a b k k] B (Msg.command p) =
      ([recordA A B a b k k, recordB A B a b k k], [(some A, p)]) := by
  simp [handleMessage, getTargetWSFromSession, recordA, recordB, List.find?,
        hAB, Ne.symm hAB]

/-- Relay on a mismatched pair is dropped: the `A` side. -/
theorem relay_mismatch_A (A B : Nat) (a b k k2 p : String) (hkk : k ≠ k2) :
    handleMessage [recordA A B a b k k2, recordB A B a b k k2] A (Msg.command p) =
      ([recordA A B a b k k2, recordB A B a b k k2], []) := by
  simp [handleMessage, getTargetWSFromSession, recordA, recordB, List.find?,
        hkk, Ne.symm hkk]

/-- Relay on a mismatched pair is dropped: the `B` side. -/
theorem relay_mismatch_B (A B : Nat) (a b k k2 p : String) (hkk : k ≠ k2) (hAB : A ≠ B) :
    handleMessage [recordA A B a b k k2, recordB A B a b k k2] B (Msg.command p) =
      ([recordA A B a b k k2, recordB A B a b k k2], []) := by
  simp [handleMessage, getTargetWSFromSession, recordA, recordB, List.find?,
        hkk, Ne.symm hkk, hAB, Ne.symm hAB]

/-- C3: symmetric handshake with agreeing keys.  Both sides are notified
`SESSION_UP`, and a relay from either side is delivered to the other. -/
theorem claim_C3_symmetry (A B : Nat) (a b k p : String) (hAB : A ≠ B) (hab : a ≠ b) :
    (handleMessage (handleMessage [] A (Msg.session (some a) (some b) (some k))).1
        B (Msg.session (some b) (some a) (some k))).2 =
      [(some B, "SESSION_UP"), (some A, "SESSION_UP")] ∧
    (handleMessage
        (handleMessage (handleMessage [] A (Msg.session (some a) (some b) (some k))).1
          B (Msg.session (some b) (some a) (some k))).1
        A (Msg.command p)).2 = [(some B, p)] ∧
    (handleMessage
        (handleMessage (handleMessage [] A (Msg.session (some a) (some b) (some k))).1
          B (Msg.session (some b) (some a) (some k))).1
        B (Msg.command p)).2 = [(some A, p)] := by
  rw [declare_first A a b k]
  dsimp only
  rw [declare_second A B a b k k hAB hab, if_pos rfl]
  dsimp only
  refine ⟨rfl, ?_, ?_⟩
  · rw [relay_from_A A B a b k p]
  · rw [relay_from_B A B a b k p hAB]

/-- C3 witness at a concrete input. -/
theorem claim_C3_symmetry_witness :
    (1 : Nat) ≠ 2 ∧ "a" ≠ "b" ∧
    ((handleMessage (handleMessage [] 1 (Msg.session (some "a") (some "b") (some "k"))).1
        2 (Msg.session (some "b") (some "a") (some "k"))).2 =
      [(some 2, "SESSION_UP"), (some 1, "SESSION_UP")] ∧
    (handleMessage
        (handleMessage (handleMessage [] 1 (Msg.session (some "a") (some "b") (some "k"))).1
          2 (Msg.session (some "b") (some "a") (some "k"))).1
        1 (Msg.command "ping")).2 = [(some 2, "ping")] ∧
    (handleMessage
        (handleMessage (handleMessage [] 1 (Msg.session (some "a") (some "b") (some "k"))).1
          2 (Msg.session (some "b") (some "a") (some "k"))).1
        2 (Msg.command "ping")).2 = [(some 1, "ping")]) :=
  ⟨by decide, by decide,
   claim_C3_symmetry 1 2 "a" "b" "k" "ping" (by decide) (by decide)⟩

/-- C4: handshake with disagreeing keys.  Both sides are notified
`SESSION_NOT_UP: -2`, and a relay from either side is dropped. -/
theorem claim_C4_mismatch (A B : Nat) (a b k1 k2 p : String) (hAB : A ≠ B)
    (hab : a ≠ b) (hkk : k1 ≠ k2) :
    (handleMessage (handleMessage [] A (Msg.session (some a) (some b) (some k1))).1
        B (Msg.session (some b) (some a) (some k2))).2 =
      [(some B, "SESSION_NOT_UP: -2"), (some A, "SESSION_NOT_UP: -2")] ∧
    (handleMessage
        (handleMessage (handleMessage [] A (Msg.session (some a) (some b) (some k1))).1
          B (Msg.session (some b) (some a) (some k2))).1
        A (Msg.command p)).2 = [] ∧
    (handleMessage
        (handleMessage (handleMessage [] A (Msg.session (some a) (some b) (some k1))).1
          B (Msg.session (some b) (some a) (some k2))).1
        B (Msg.command p)).2 = [] := by
  rw [declare_first A a b k1]
  dsimp only
  rw [declare_second A B a b k1 k2 hAB hab, if_neg (fun hh => hkk hh.symm)]
  dsimp only
  refine ⟨rfl, ?_, ?_⟩
  · rw [relay_mismatch_A A B a b k1 k2 p hkk]
  · rw [relay_mismatch_B A B a b k1 k2 p hkk hAB]

/-- C4 witness at a concrete input. -/
theorem claim_C4_mismatch_witness :
    (1 : Nat) ≠ 2 ∧ "a" ≠ "b" ∧ "j" ≠ "k" ∧
    ((handleMessage (handleMessage [] 1 (Msg.session (some "a") (some "b") (some "j"))).1
        2 (Msg.session (some "b") (some "a") (some "k"))).2 =
      [(some 2, "SESSION_NOT_UP: -2"), (some 1, "SESSION_NOT_UP: -2")] ∧
    (handleMessage
        (handleMessage (handleMessage [] 1 (Msg.session (some "a") (some "b") (some "j"))).1
          2 (Msg.session (some "b") (some "a") (some "k"))).1
        1 (Msg.command "ping")).2 = [] ∧
    (handleMessage
        (handleMessage (handleMessage [] 1 (Msg.session (some "a") (some "b") (some "j"))).1
          2 (Msg.session (some "b") (some "a") (some "k"))).1
        2 (Msg.command "ping")).2 = []) :=
  ⟨by decide, by decide, by decide,
   claim_C4_mismatch 1 2 "a" "b" "j" "k" "ping" (by decide) (by decide) (by decide)⟩

/-- C5: when `B` of a confirmed pair disconnects, `A`'s record is demoted to
pending, `A` is sent exactly `SESSION_NOT_UP: -1`, and `B`'s own record is
removed from the table. -/
theorem claim_C5_disconnect (A B : Nat) (a b k : String) (hAB : A ≠ B) (hab : a ≠ b) :
    handleClose
        (handleMessage (handleMessage [] A (Msg.session (some a) (some b) (some k))).1
          B (Msg.session (some b) (some a) (some k))).1 B =
      ([recordPending A a b k], [(some A, "SESSION_NOT_UP: -1")]) := by
  rw [declare_first A a b k]
  dsimp only
  rw [declare_second A B a b k k hAB hab]
  dsimp only
  simp [handleClose, updateSessionClearTargetInfoFromTargetID, deleteSessionFromID,
        List.findIdx?, recordA, recordB, recordPending, getS, hAB, Ne.symm hAB]

/-- C5 witness at a concrete input. -/
theorem claim_C5_disconnect_witness :
    (1 : Nat) ≠ 2 ∧ "a" ≠ "b" ∧
    handleClose
        (handleMessage (handleMessage [] 1 (Msg.session (some "a") (some "b") (some "k"))).1
          2 (Msg.session (some "b") (some "a") (some "k"))).1 2 =
      ([recordPending 1 "a" "b" "k"], [(some 1, "SESSION_NOT_UP: -1")]) :=
  ⟨by decide, by decide, claim_C5_disconnect 1 2 "a" "b" "k" (by decide) (by decide)⟩

/-- C6: re-declaring the identical `(a, b, k)` on a confirmed pair leaves
the table unchanged (both records still mutually linked with equal keys)
and reports `SESSION_UP` to both sides again. -/
theorem claim_C6_idempotent (A B : Nat) (a b k : String) (hAB : A ≠ B) (hab : a ≠ b) :
    handleMessage
        (handleMessage (handleMessage [] A (Msg.session (some a) (some b) (some k))).1
          B (Msg.session (some b) (some a) (some k))).1
        A (Msg.session (some a) (some b) (some k)) =
      ([recordA A B a b k k, recordB A B a b k k],
       [(some A, "SESSION_UP"), (some B, "SESSION_UP")]) := by
  rw [declare_first A a b k]
  dsimp only
  rw [declare_second A B a b k k hAB hab, if_pos rfl]
  dsimp only
  simp [handleMessage, updateSessionTable, locate, scanLoop, addSession, sessionSends,
        updateSessionFromIndex, getS, classify, recordA, recordB,
        hAB, hab, Ne.symm hAB, Ne.symm hab]

/-- C6 witness at a concrete input. -/
theorem claim_C6_idempotent_witness :
    (1 : Nat) ≠ 2 ∧ "a" ≠ "b" ∧
    handleMessage
        (handleMessage (handleMessage [] 1 (Msg.session (some "a") (some "b") (some "k"))).1
          2 (Msg.session (some "b") (some "a") (some "k"))).1
        1 (Msg.session (some "a") (some "b") (some "k")) =
      ([recordA 1 2 "a" "b" "k" "k", recordB 1 2 "a" "b" "k" "k"],
       [(some 1, "SESSION_UP"), (some 2, "SESSION_UP")]) :=
  ⟨by decide, by decide, claim_C6_idempotent 1 2 "a" "b" "k" (by decide) (by decide)⟩

/-- C1 as stated is false: after the confirmed pair `(1, 2)`, connection `1`
re-declaring `("a", "c", "k")` demotes connection `2`'s record but sends `2`
no notification at all — the complete send list of that event is the single
pending notification to the declarer. -/
theorem claim_C1_counterexample :
    (handleMessage
        (handleMessage (handleMessage [] 1 (Msg.session (some "a") (some "b") (some "k"))).1
          2 (Msg.session (some "b") (some "a") (some "k"))).1
        1 (Msg.session (some "a") (some "c") (some "k"))).2 =
      [(some 1, "SESSION_NOT_UP: -1")] ∧
    (some 2, "SESSION_NOT_UP: -1") ∉ (handleMessage
        (handleMessage (handleMessage [] 1 (Msg.session (some "a") (some "b") (some "k"))).1
          2 (Msg.session (some "b") (some "a") (some "k"))).1
        1 (Msg.session (some "a") (some "c") (some "k"))).2 ∧
    (some 2, "SESSION_NOT_UP: -2") ∉ (handleMessage
        (handleMessage (handleMessage [] 1 (Msg.session (some "a") (some "b") (some "k"))).1
          2 (Msg.session (some "b") (some "a") (some "k"))).1
        1 (Msg.session (some "a") (some "c") (some "k"))).2 ∧
    (some 2, "SESSION_UP") ∉ (handleMessage
        (handleMessage (handleMessage [] 1 (Msg.session (some "a") (some "b") (some "k"))).1
          2 (Msg.session (some "b") (some "a") (some "k"))).1
        1 (Msg.session (some "a") (some "c") (some "k"))).2 := by
  decide

/-- C1 amended: the identity change removes `A`'s old record and demotes
`B`'s record to pending, but `B` receives no notification; only the
declarer is sent the pending notification. -/
theorem claim_C1_identity_change (A B : Nat) (a b c k k2 : String) (hAB : A ≠ B)
    (hab : a ≠ b) (hcb : c ≠ b) :
    handleMessage
        (handleMessage (handleMessage [] A (Msg.session (some a) (some b) (some k))).1
          B (Msg.session (some b) (some a) (some k))).1
        A (Msg.session (some a) (some c) (some k2)) =
      ([recordPending B b a k, recordPending A a c k2],
       [(some A, "SESSION_NOT_UP: -1")]) ∧
    ∀ m : String, (some B, m) ∉ [((some A : Option Nat), "SESSION_NOT_UP: -1")] := by
  constructor
  · rw [declare_first A a b k]
    dsimp only
    rw [declare_second A B a b k k hAB hab]
    dsimp only
    simp [handleMessage, updateSessionTable, locate, scanLoop, clearPartner,
          updateSessionClearTargetInfo, addSession, sessionSends, updateSessionFromIndex,
          getS, classify, recordA, recordB, recordPending, sendNotUp1,
          hAB, hab, hcb, Ne.symm hAB, Ne.symm hab, Ne.symm hcb]
  · intro m hm
    rw [List.mem_singleton] at hm
    exact hAB (congrArg Prod.fst hm |> Option.some_inj.mp).symm

/-- C1 amended witness at a concrete input. -/
theorem claim_C1_identity_change_witness :
    (1 : Nat) ≠ 2 ∧ "a" ≠ "b" ∧ "c" ≠ "b" ∧
    (handleMessage
        (handleMessage (handleMessage [] 1 (Msg.session (some "a") (some "b") (some "k"))).1
          2 (Msg.session (some "b") (some "a") (some "k"))).1
        1 (Msg.session (some "a") (some "c") (some "j")) =
      ([recordPending 2 "b" "a" "k", recordPending 1 "a" "c" "j"],
       [(some 1, "SESSION_NOT_UP: -1")]) ∧
    ∀ m : String, (some 2, m) ∉ [((some 1 : Option Nat), "SESSION_NOT_UP: -1")]) :=
  ⟨by decide, by decide, by decide,
   claim_C1_identity_change 1 2 "a" "b" "c" "k" "j" (by decide) (by decide) (by decide)⟩

/-- C2: on a declaration with a missing field, `updateSessionTable` returns
the bare number `-100`, so `res.result` is `undefined` in server.js and the
declarer is sent `"SESSION_NOT_UP: undefined"` — not `"SESSION_NOT_UP: -100"`.
No other connection receives anything and the table is unchanged. -/
theorem claim_C2_invalid_declaration (s : List Session) (w : Nat) (c t k : Option String)
    (h : c = none ∨ t = none ∨ k = none) :
    handleMessage s w (Msg.session c t k) =
      (s, [(some w, "SESSION_NOT_UP: undefined")]) := by
  rcases c with _ | c <;> rcases t with _ | t <;> rcases k with _ | k <;>
    first
      | (rcases h with h | h | h <;> exact Option.noConfusion h)
      | simp [handleMessage, updateSessionTable, sessionSends]

/-- C2 witness at a concrete input: the `target` field is absent. -/
theorem claim_C2_invalid_declaration_witness :
    ((some "a" : Option String) = none ∨ (none : Option String) = none ∨
      (some "k" : Option String) = none) ∧
    handleMessage [] 1 (Msg.session (some "a") none (some "k")) =
      ([], [(some 1, "SESSION_NOT_UP: undefined")]) :=
  ⟨Or.inr (Or.inl rfl),
   claim_C2_invalid_declaration [] 1 (some "a") none (some "k") (Or.inr (Or.inl rfl))⟩

/-- C7: a relay from a connection whose lookup finds no record, or a record
without matching keys or without a partner reference, changes no record of
the table and sends to no connection. -/
theorem claim_C7_inert_relay (s : List Session) (C : Nat) (p : String)
    (h : ∀ r, s.find? (fun x => x.clientWS = C) = some r →
      r.targetKey ≠ some r.clientKey ∨ r.targetWS = none) :
    (handleMessage s C (Msg.command p)).1 = s ∧
    ∀ x, x ∈ (handleMessage s C (Msg.command p)).2 → x.1 = (none : Option Nat) := by
  unfold handleMessage getTargetWSFromSession
  cases hfind : s.find? (fun x => x.clientWS = C) with
  | none => exact ⟨rfl, by simp⟩
  | some r =>
    dsimp only
    by_cases hkey : r.targetKey = some r.clientKey
    · rw [if_pos hkey]
      rcases h r hfind with hk | hw
      · exact absurd hkey hk
      · refine ⟨rfl, ?_⟩
        intro x hx
        rw [List.mem_singleton] at hx
        subst hx
        exact hw
    · rw [if_neg hkey]
      exact ⟨rfl, by simp⟩

/-- C7 witness at a concrete input: the connection owns a pending record
with no target key. -/
theorem claim_C7_inert_relay_witness :
    (∀ r, [recordPending 1 "a" "b" "k"].find? (fun x => x.clientWS = 1) = some r →
      r.targetKey ≠ some r.clientKey ∨ r.targetWS = none) ∧
    ((handleMessage [recordPending 1 "a" "b" "k"] 1 (Msg.command "ping")).1 =
      [recordPending 1 "a" "b" "k"] ∧
    ∀ x, x ∈ (handleMessage [recordPending 1 "a" "b" "k"] 1 (Msg.command "ping")).2 →
      x.1 = (none : Option Nat)) := by
  have h : ∀ r, [recordPending 1 "a" "b" "k"].find? (fun x => x.clientWS = 1) = some r →
      r.targetKey ≠ some r.clientKey ∨ r.targetWS = none := by
    intro r hr
    have : recordPending 1 "a" "b" "k" = r := by
      simpa [recordPending, List.find?] using hr
    subst this
    exact Or.inl (by decide)
  exact ⟨h, claim_C7_inert_relay [recordPending 1 "a" "b" "k"] 1 "ping" h⟩

/-- C8: in every reachable session table, no two records carry the same
connection identity. -/
theorem claim_C8_unique_ids (s : List Session) (h : Reachable s) : distinctIDs s :=
  (reachable_Inv s h).1

/-- C8 witness: a concrete reachable two-record table. -/
theorem claim_C8_unique_ids_witness :
    Reachable [recordA 1 2 "a" "b" "k" "k", recordB 1 2 "a" "b" "k" "k"] ∧
    distinctIDs [recordA 1 2 "a" "b" "k" "k", recordB 1 2 "a" "b" "k" "k"] := by
  have h1 : Reachable (step [] (Event.message 1 (Msg.session (some "a") (some "b") (some "k")))).1 :=
    Reachable.next [] _ Reachable.init
  have h2 : Reachable (step (step [] (Event.message 1 (Msg.session (some "a") (some "b") (some "k")))).1
      (Event.message 2 (Msg.session (some "b") (some "a") (some "k")))).1 :=
    Reachable.next _ _ h1
  have he : (step (step [] (Event.message 1 (Msg.session (some "a") (some "b") (some "k")))).1
      (Event.message 2 (Msg.session (some "b") (some "a") (some "k")))).1 =
      [recordA 1 2 "a" "b" "k" "k", recordB 1 2 "a" "b" "k" "k"] := by decide
  rw [he] at h2
  exact ⟨h2, claim_C8_unique_ids _ h2⟩

/-- C9 as stated is false: in the reachable one-record table left by
connection `1` declaring `("a", "b", "k")`, the record matching the pair
`("a", "b")` exists but is owned by connection `1`; when connection `2` then
declares the same pair, that forward record is not `2`'s own prior
declaration — and the code hands the record over to connection `2`. -/
theorem claim_C9_counterexample :
    Reachable [recordPending 1 "a" "b" "k"] ∧
    (getS [recordPending 1 "a" "b" "k"] 0).clientID = "a" ∧
    (getS [recordPending 1 "a" "b" "k"] 0).targetID = "b" ∧
    (getS [recordPending 1 "a" "b" "k"] 0).ID ≠ 2 ∧
    (locate [recordPending 1 "a" "b" "k"] 2 "a" "b").2.1 = some 0 ∧
    (handleMessage [recordPending 1 "a" "b" "k"] 2
        (Msg.session (some "a") (some "b") (some "k"))).1 =
      [recordPending 2 "a" "b" "k"] := by
  have h1 : Reachable (step [] (Event.message 1 (Msg.session (some "a") (some "b") (some "k")))).1 :=
    Reachable.next [] _ Reachable.init
  have he : (step [] (Event.message 1 (Msg.session (some "a") (some "b") (some "k")))).1 =
      [recordPending 1 "a" "b" "k"] := by decide
  rw [he] at h1
  exact ⟨h1, by decide, by decide, by decide, by decide, by decide⟩

/-- C9 amended: the forward record located by a declaration matches the
declared pair but need not be owned by the declaring connection; after the
declaration is processed, the record at that position carries the declaring
connection's identity in both `ID` and `clientConnection`. -/
theorem claim_C9_forward_owner (l : List Session) (wsID : Nat) (cl tg ky : String)
    (ci : Nat) (hr : Reachable l)
    (h : (locate l wsID cl tg).2.1 = some ci) :
    ci < (updateSessionTable l wsID (some cl) (some tg) (some ky)).1.length ∧
    (getS (updateSessionTable l wsID (some cl) (some tg) (some ky)).1 ci).ID = wsID ∧
    (getS (updateSessionTable l wsID (some cl) (some tg) (some ky)).1 ci).clientID = cl ∧
    (getS (updateSessionTable l wsID (some cl) (some tg) (some ky)).1 ci).targetID = tg ∧
    (getS (updateSessionTable l wsID (some cl) (some tg) (some ky)).1 ci).clientWS = wsID := by
  have hinv := reachable_Inv l hr
  obtain ⟨hinv0, hpost⟩ := locate_spec l wsID cl tg hinv
  obtain ⟨p1, p2, p3, p4, p5⟩ := hpost
  obtain ⟨_, hci, _, _⟩ := p1 ci h
  cases hti : (locate l wsID cl tg).2.2 with
  | none =>
    simp only [updateSessionTable, h, hti]
    unfold updateSessionFromIndex
    try dsimp only
    have hlen : ((locate l wsID cl tg).1.set ci
        { ID := wsID, clientID := cl, targetID := tg, clientKey := ky,
          targetKey := none, clientWS := wsID, targetWS := none }).length =
        (locate l wsID cl tg).1.length := List.length_set _ _ _
    refine ⟨by rw [hlen]; exact hci, ?_⟩
    rw [getS_set_self _ _ _ hci]
    exact ⟨rfl, rfl, rfl, rfl⟩
  | some ti =>
    have hne : ci ≠ ti := p3 ci ti h hti
    simp only [updateSessionTable, h, hti]
    unfold updateSessionFromIndex
    try dsimp only
    split <;>
    · dsimp only
      rw [List.length_set, List.length_set]
      refine ⟨hci, ?_⟩
      rw [getS_set_ne _ _ _ _ (fun hh => hne hh.symm), getS_set_self _ _ _ hci]
      exact ⟨rfl, rfl, rfl, rfl⟩

/-- C9 amended witness at a concrete input. -/
theorem claim_C9_forward_owner_witness :
    Reachable [recordPending 1 "a" "b" "k"] ∧
    (locate [recordPending 1 "a" "b" "k"] 2 "a" "b").2.1 = some 0 ∧
    (0 < (updateSessionTable [recordPending 1 "a" "b" "k"] 2
        (some "a") (some "b") (some "k")).1.length ∧
    (getS (updateSessionTable [recordPending 1 "a" "b" "k"] 2
        (some "a") (some "b") (some "k")).1 0).ID = 2 ∧
    (getS (updateSessionTable [recordPending 1 "a" "b" "k"] 2
        (some "a") (some "b") (some "k")).1 0).clientID = "a" ∧
    (getS (updateSessionTable [recordPending 1 "a" "b" "k"] 2
        (some "a") (some "b") (some "k")).1 0).targetID = "b" ∧
    (getS (updateSessionTable [recordPending 1 "a" "b" "k"] 2
        (some "a") (some "b") (some "k")).1 0).clientWS = 2) := by
  have h1 : Reachable (step [] (Event.message 1 (Msg.session (some "a") (some "b") (some "k")))).1 :=
    Reachable.next [] _ Reachable.init
  have he : (step [] (Event.message 1 (Msg.session (some "a") (some "b") (some "k")))).1 =
      [recordPending 1 "a" "b" "k"] := by decide
  rw [he] at h1
  exact ⟨h1, by decide,
    claim_C9_forward_owner [recordPending 1 "a" "b" "k"] 2 "a" "b" "k" 0 h1 (by decide)⟩

/-- C10: in every reachable table a record whose keys agree has a non-null
partner reference, the relay lookup never returns a null socket (its error
codes being `-1` and `-2`), and relay sends never target a null socket. -/
theorem claim_C10_no_null_send (s : List Session) (h : Reachable s) :
    (∀ i, i < s.length → (getS s i).targetKey = some (getS s i).clientKey →
      (getS s i).targetWS ≠ none) ∧
    (∀ w, getTargetWSFromSession s w ≠ TargetLookup.ws none) ∧
    (∀ w code, getTargetWSFromSession s w = TargetLookup.errCode code →
      code = -1 ∨ code = -2) ∧
    (∀ w p x, x ∈ (handleMessage s w (Msg.command p)).2 → x.1 ≠ (none : Option Nat)) := by
  have htc := (reachable_Inv s h).2.2.2
  have key : ∀ i, i < s.length → (getS s i).targetKey = some (getS s i).clientKey →
      (getS s i).targetWS ≠ none := by
    intro i hi hk hw
    rw [htc i hi hw] at hk
    exact Option.noConfusion hk
  have lookup : ∀ w, getTargetWSFromSession s w ≠ TargetLookup.ws none := by
    intro w
    unfold getTargetWSFromSession
    cases hfind : s.find? (fun x => x.clientWS = w) with
    | none => exact fun hh => TargetLookup.noConfusion hh
    | some r =>
      dsimp only
      have hmem : r ∈ s := List.mem_of_find?_eq_some hfind
      obtain ⟨i, hi, hgi⟩ := (mem_iff_getS s r).mp hmem
      by_cases hkey : r.targetKey = some r.clientKey
      · rw [if_pos hkey]
        intro hh
        have hw : r.targetWS = none := TargetLookup.ws.inj hh
        exact key i hi (hgi ▸ hkey) (hgi ▸ hw)
      · rw [if_neg hkey]
        exact fun hh => TargetLookup.noConfusion hh
  refine ⟨key, lookup, ?_, ?_⟩
  · intro w code
    unfold getTargetWSFromSession
    cases hfind : s.find? (fun x => x.clientWS = w) with
    | none =>
      intro hh
      exact Or.inl (TargetLookup.errCode.inj hh).symm
    | some r =>
      dsimp only
      by_cases hkey : r.targetKey = some r.clientKey
      · rw [if_pos hkey]
        exact fun hh => TargetLookup.noConfusion hh
      · rw [if_neg hkey]
        intro hh
        exact Or.inr (TargetLookup.errCode.inj hh).symm
  · intro w p x hx
    unfold handleMessage at hx
    revert hx
    cases hres : getTargetWSFromSession s w with
    | errCode code => intro hx; exact absurd hx (by simp)
    | ws v =>
      intro hx
      rw [List.mem_singleton] at hx
      subst hx
      intro hv
      exact lookup w (by rw [hres]; exact congrArg TargetLookup.ws hv)

/-- C10 witness: the concrete reachable confirmed-pair table. -/
theorem claim_C10_no_null_send_witness :
    Reachable [recordA 1 2 "a" "b" "k" "k", recordB 1 2 "a" "b" "k" "k"] ∧
    ((∀ i, i < [recordA 1 2 "a" "b" "k" "k", recordB 1 2 "a" "b" "k" "k"].length →
      (getS [recordA 1 2 "a" "b" "k" "k", recordB 1 2 "a" "b" "k" "k"] i).targetKey =
        some (getS [recordA 1 2 "a" "b" "k" "k", recordB 1 2 "a" "b" "k" "k"] i).clientKey →
      (getS [recordA 1 2 "a" "b" "k" "k", recordB 1 2 "a" "b" "k" "k"] i).targetWS ≠ none) ∧
    (∀ w, getTargetWSFromSession [recordA 1 2 "a" "b" "k" "k", recordB 1 2 "a" "b" "k" "k"] w ≠
      TargetLookup.ws none) ∧
    (∀ w code, getTargetWSFromSession [recordA 1 2 "a" "b" "k" "k", recordB 1 2 "a" "b" "k" "k"] w =
      TargetLookup.errCode code → code = -1 ∨ code = -2) ∧
    (∀ w p x, x ∈ (handleMessage [recordA 1 2 "a" "b" "k" "k", recordB 1 2 "a" "b" "k" "k"] w
        (Msg.command p)).2 → x.1 ≠ (none : Option Nat))) := by
  have h1 : Reachable (step [] (Event.message 1 (Msg.session (some "a") (some "b") (some "k")))).1 :=
    Reachable.next [] _ Reachable.init
  have h2 : Reachable (step (step [] (Event.message 1 (Msg.session (some "a") (some "b") (some "k")))).1
      (Event.message 2 (Msg.session (some "b") (some "a") (some "k")))).1 :=
    Reachable.next _ _ h1
  have he : (step (step [] (Event.message 1 (Msg.session (some "a") (some "b") (some "k")))).1
      (Event.message 2 (Msg.session (some "b") (some "a") (some "k")))).1 =
      [recordA 1 2 "a" "b" "k" "k", recordB 1 2 "a" "b" "k" "k"] := by decide
  rw [he] at h2
  exact ⟨h2, claim_C10_no_null_send _ h2⟩

end Broker
